import Mathlib

/-!
Verification of the pmacct-prometheus flow-enrichment pipeline (pipe.go).

The Go source is shallowly embedded: each Go function becomes an executable
Lean definition that mirrors the source's control flow.  Machine integers are
modelled as Nat/Int (no overflow is reachable on the modelled paths), Go's
(value, error) returns become Except, nil-able pointers become Option, and a
Go runtime panic is an explicit constructor of the result type.

External library functions called by pipe.go (netaddr.ParseIP, IP.IsPrivate,
encoding/json Unmarshal for the Flow struct, the geoip2 lookups, the
prometheus counter) are modelled here as well, translated from their
documented/actual behaviour, since the pipeline's observable behaviour
depends on them.
-/

namespace Pmacct

/-! ## IP addresses (model of inet.af/netaddr) -/

/--
Model of netaddr.IP.  netaddr keeps IPv4 and IPv6 addresses distinct (an
IPv4 address and its 4-in-6 form are different values), stores an optional
zone on IPv6 addresses, and has a zero value that is neither v4 nor v6.
Structural equality of this type matches Go == on netaddr.IP.
-/
inductive IPRep where
  | zero
  | v4 (a b c d : Nat)
  | v6 (bytes : List Nat) (zone : String)
deriving DecidableEq, Repr

/--
Model of netaddr.IP.IsPrivate: RFC 1918 for IPv4 (10.0.0.0/8,
172.16.0.0/12, 192.168.0.0/16) and RFC 4193 for IPv6 (fc00::/7).
Loopback and link-local addresses are NOT private under this function.
-/
def IPRep.IsPrivate : IPRep → Bool
  | .v4 a b _ _ =>
      a == 10 || (a == 172 && (b &&& 0xf0) == 16) || (a == 192 && b == 168)
  | .v6 bytes _ => ((bytes.headD 0) &&& 0xfe) == 0xfc
  | .zero => false

/-- First occurrence of a delimiter character, as in netaddr.ParseIP's
dispatch loop (switch over the dot, colon and percent characters). -/
def firstDelim : List Char → Option Char
  | [] => none
  | c :: rest =>
      if c = '.' ∨ c = ':' ∨ c = '%' then some c else firstDelim rest

/-- Loop body of netaddr parseIPv4: accumulate decimal fields separated by
dots; a field value above 255, an empty field, a trailing dot or a fifth
field is an error.  digitSeen tracks whether the current field has a digit
(the Go code checks i == 0 or the previous character being a dot). -/
def parseIPv4Fields : List Char → Nat → Nat → List Nat → Bool → Except String IPRep
  | [], val, pos, fields, _ =>
      if pos < 3 then .error "IPv4 address too short"
      else
        match fields with
        | [a, b, c] => .ok (.v4 a b c val)
        | _ => .error "IPv4 internal error"
  | ch :: rest, val, pos, fields, digitSeen =>
      if '0' ≤ ch ∧ ch ≤ '9' then
        let val2 := val * 10 + (ch.toNat - '0'.toNat)
        if val2 > 255 then .error "IPv4 field has value >255"
        else parseIPv4Fields rest val2 pos fields true
      else if ch = '.' then
        if ¬ digitSeen then .error "IPv4 field must have at least one digit"
        else if rest = [] then .error "IPv4 address too short"
        else if pos = 3 then .error "IPv4 address too long"
        else parseIPv4Fields rest 0 (pos + 1) (fields ++ [val]) false
      else .error "unexpected character in IPv4 address"

/-- netaddr parseIPv4. -/
def parseIPv4 (s : List Char) : Except String IPRep :=
  parseIPv4Fields s 0 0 [] false

/-- Value of a hexadecimal digit character, if it is one. -/
def hexDigitVal (c : Char) : Option Nat :=
  if '0' ≤ c ∧ c ≤ '9' then some (c.toNat - '0'.toNat)
  else if 'a' ≤ c ∧ c ≤ 'f' then some (c.toNat - 'a'.toNat + 10)
  else if 'A' ≤ c ∧ c ≤ 'F' then some (c.toNat - 'A'.toNat + 10)
  else none

/-- Hex-field scan of netaddr parseIPv6: read hex digits, failing when the
accumulator exceeds 16 bits; return the accumulated value, the number of
digits read, and the rest of the input. -/
def hexRun : List Char → Nat → Nat → Except String (Nat × Nat × List Char)
  | [], acc, off => .ok (acc, off, [])
  | c :: rest, acc, off =>
      match hexDigitVal c with
      | some d =>
          let acc2 := acc * 16 + d
          if acc2 > 0xFFFF then .error "IPv6 field has value >=2^16"
          else hexRun rest acc2 (off + 1)
      | none => .ok (acc, off, c :: rest)

/-- Split an IPv6 literal at its first percent character into address part
and optional zone (netaddr parseIPv6 splits the zone off first). -/
def splitZone : List Char → List Char × Option (List Char)
  | [] => ([], none)
  | '%' :: rest => ([], some rest)
  | c :: rest =>
      let p := splitZone rest
      (c :: p.1, p.2)

/--
Main loop of netaddr parseIPv6.  ip is the list of bytes written so far
(length i), ell the position of the double-colon ellipsis if one was seen.
Returns the written bytes, the write position, the ellipsis position and the
unconsumed input.
-/
def parseIPv6Loop (s : List Char) (ip : List Nat) (i : Nat) (ell : Option Nat) :
    Except String (List Nat × Nat × Option Nat × List Char) :=
  if h : i < 16 then
    match hexRun s 0 0 with
    | .error e => .error e
    | .ok (acc, off, rest) =>
      if off = 0 then .error "each colon-separated field must have at least one digit"
      else
        match rest with
        | '.' :: _ =>
          -- embedded IPv4 in the final two fields; parseIPv4 re-reads the
          -- whole remaining chunk (the scanned hex digits were its decimal
          -- digits)
          if ell.isNone ∧ i ≠ 12 then
            .error "embedded IPv4 address must replace the final 2 fields of the address"
          else if i + 4 > 16 then
            .error "too many hex fields to fit an embedded IPv4 at the end of the address"
          else
            match parseIPv4 s with
            | .error e => .error e
            | .ok (.v4 a b c d) => .ok (ip ++ [a, b, c, d], i + 4, ell, [])
            | .ok _ => .error "IPv6 internal error"
        | _ =>
          let ip2 := ip ++ [acc / 256, acc % 256]
          match rest with
          | [] => .ok (ip2, i + 2, ell, [])
          | [':'] => .error "colon must be followed by more characters"
          | ':' :: ':' :: rest2 =>
            if ell.isSome then .error "multiple double-colons in address"
            else
              match rest2 with
              | [] => .ok (ip2, i + 2, some (i + 2), [])
              | _ => parseIPv6Loop rest2 ip2 (i + 2) (some (i + 2))
          | ':' :: rest2 => parseIPv6Loop rest2 ip2 (i + 2) ell
          | _ => .error "unexpected character, want colon"
  else .ok (ip, i, ell, s)
termination_by 16 - i
decreasing_by all_goals omega

/-- netaddr parseIPv6: zone split, optional leading double-colon, main loop,
then ellipsis expansion. -/
def parseIPv6Go (inp : List Char) : Except String IPRep :=
  match splitZone inp with
  | (_, some []) => .error "zone must be a non-empty string"
  | (s0, zOpt) =>
    let zone := String.mk (zOpt.getD [])
    let start : List Char × Option Nat :=
      match s0 with
      | ':' :: ':' :: rest => (rest, some 0)
      | _ => (s0, none)
    match start with
    | ([], some 0) => .ok (.v6 (List.replicate 16 0) zone)  -- the unspecified address
    | (s1, ell0) =>
      match parseIPv6Loop s1 [] 0 ell0 with
      | .error e => .error e
      | .ok (ip, i, ell, srem) =>
        if srem ≠ [] then .error "trailing garbage after address"
        else if i < 16 then
          match ell with
          | none => .error "address string too short"
          | some e => .ok (.v6 (ip.take e ++ List.replicate (16 - i) 0 ++ ip.drop e) zone)
        else if ell.isSome then
          .error "the double-colon must expand to at least one field of zeros"
        else .ok (.v6 ip zone)

/-- netaddr.ParseIP: dispatch on the first delimiter character found. -/
def ParseIP (str : String) : Except String IPRep :=
  match firstDelim str.data with
  | some '.' => parseIPv4 str.data
  | some ':' => parseIPv6Go str.data
  | some _ => .error "missing IPv6 address"
  | none => .error "unable to parse IP"

/-! ## Lookup services (geoip2) and Peer (pipe.go) -/

/-- The fields of a geoip2 City record used by pipe.go.  Names maps are kept
as association lists so that the lookup of the English name mirrors the Go
map access (zero value on a missing key). -/
structure CityRecord where
  countryNames : List (String × String)
  countryIsoCode : String
  cityNames : List (String × String)
  latitude : Rat
  longitude : Rat
deriving DecidableEq, Repr

/-- The fields of a geoip2 ASN record used by pipe.go. -/
structure ASNRecord where
  autonomousSystemNumber : Nat
  autonomousSystemOrganization : String
deriving DecidableEq, Repr

/-- Go map access on a string map: the zero value (empty string) when the
key is absent. -/
def goMapGet (m : List (String × String)) (k : String) : String :=
  match m.find? (fun p => p.1 == k) with
  | some p => p.2
  | none => ""

/-- A City database: a read-only lookup that may have no record for an
address (the nil-record case in pipe.go's MakePeer). -/
abbrev CityDB := IPRep → Option CityRecord

/-- An ASN database. -/
abbrev AsnDB := IPRep → Option ASNRecord

/-- Peer (pipe.go lines 48-57). -/
structure Peer where
  Ip : IPRep
  Country : String
  CountryISO : String
  City : String
  Asn : String
  AsnOrg : String
  Latitude : Rat
  Longitude : Rat
deriving DecidableEq, Repr

/-- The Go error values that flow through MakeFlow: a json decoding error or
a netaddr parse error. -/
inductive GoError where
  | jsonError (msg : String)
  | parseIPError (msg : String)
deriving DecidableEq, Repr

/--
MakePeer (pipe.go lines 91-129): parse the raw address (the only hard
failure), then fill the city fields if the city lookup has a record and the
ASN fields if the ASN lookup has a record; a missing record leaves the
corresponding fields at their zero values.
-/
def MakePeer (ipRaw : String) (dbCity : CityDB) (dbASN : AsnDB) : Except GoError Peer :=
  match ParseIP ipRaw with
  | .error e => .error (.parseIPError e)
  | .ok ip =>
    let country := match dbCity ip with
      | some r => goMapGet r.countryNames "en"
      | none => ""
    let countryISO := match dbCity ip with
      | some r => r.countryIsoCode
      | none => ""
    let city := match dbCity ip with
      | some r => goMapGet r.cityNames "en"
      | none => ""
    let latitude := match dbCity ip with
      | some r => r.latitude
      | none => (0 : Rat)
    let longitude := match dbCity ip with
      | some r => r.longitude
      | none => (0 : Rat)
    let asn := match dbASN ip with
      | some r => Nat.repr r.autonomousSystemNumber
      | none => ""
    let asnOrg := match dbASN ip with
      | some r => r.autonomousSystemOrganization
      | none => ""
    .ok { Ip := ip, Country := country, CountryISO := countryISO, City := city,
          Asn := asn, AsnOrg := asnOrg, Latitude := latitude, Longitude := longitude }

/-! ## JSON values and parsing (model of encoding/json for pipe.go's structs)

json.Unmarshal first validates the whole input, then decodes; the model
parses to a JSON value and then decodes that value.  Numbers keep their
literal text, because Go decodes a number into an int field by running
strconv.ParseInt on the literal (so fractions and exponents are errors for
int fields even when integral). -/

inductive JsonValue where
  | null
  | bool (b : Bool)
  | num (lit : String)
  | str (s : String)
  | arr (elems : List JsonValue)
  | obj (fields : List (String × JsonValue))
deriving Repr

/-- JSON whitespace. -/
def isSpaceChar (c : Char) : Bool :=
  c == ' ' || c == '\t' || c == '\n' || c == '\r'

/-- Drop leading JSON whitespace. -/
def skipWs : List Char → List Char
  | [] => []
  | c :: rest => if isSpaceChar c then skipWs rest else c :: rest

/-- Read four hex digits. -/
def hex4 : List Char → Option (Nat × List Char)
  | a :: b :: c :: d :: rest =>
      match hexDigitVal a, hexDigitVal b, hexDigitVal c, hexDigitVal d with
      | some va, some vb, some vc, some vd =>
          some (((va * 16 + vb) * 16 + vc) * 16 + vd, rest)
      | _, _, _, _ => none
  | _ => none

/-- JSON string body (after the opening quote): plain characters, the
standard escapes, and unicode escapes with Go's surrogate-pair handling
(an unpaired surrogate becomes the replacement character). -/
def parseJString : Nat → List Char → List Char → Except String (String × List Char)
  | 0, _, _ => .error "string literal too long"
  | _ + 1, [], _ => .error "unexpected end of JSON input"
  | fuel + 1, c :: rest, acc =>
      if c = '\"' then .ok (String.mk acc.reverse, rest)
      else if c = '\\' then
        match rest with
        | [] => .error "unexpected end of JSON input"
        | e :: r2 =>
          if e = '\"' then parseJString fuel r2 ('\"' :: acc)
          else if e = '\\' then parseJString fuel r2 ('\\' :: acc)
          else if e = '/' then parseJString fuel r2 ('/' :: acc)
          else if e = 'b' then parseJString fuel r2 ('\x08' :: acc)
          else if e = 'f' then parseJString fuel r2 ('\x0c' :: acc)
          else if e = 'n' then parseJString fuel r2 ('\n' :: acc)
          else if e = 'r' then parseJString fuel r2 ('\r' :: acc)
          else if e = 't' then parseJString fuel r2 ('\t' :: acc)
          else if e = 'u' then
            match hex4 r2 with
            | none => .error "invalid unicode escape in string"
            | some (c1, r3) =>
              if 0xD800 ≤ c1 ∧ c1 < 0xDC00 then
                match r3 with
                | '\\' :: 'u' :: r4 =>
                  match hex4 r4 with
                  | some (c2, r5) =>
                    if 0xDC00 ≤ c2 ∧ c2 < 0xE000 then
                      parseJString fuel r5
                        (Char.ofNat (0x10000 + (c1 - 0xD800) * 0x400 + (c2 - 0xDC00)) :: acc)
                    else parseJString fuel r3 (Char.ofNat 0xFFFD :: acc)
                  | none => parseJString fuel r3 (Char.ofNat 0xFFFD :: acc)
                | _ => parseJString fuel r3 (Char.ofNat 0xFFFD :: acc)
              else if 0xDC00 ≤ c1 ∧ c1 < 0xE000 then
                parseJString fuel r3 (Char.ofNat 0xFFFD :: acc)
              else parseJString fuel r3 (Char.ofNat c1 :: acc)
          else .error "invalid character in string escape code"
      else if c.toNat < 0x20 then .error "invalid control character in string literal"
      else parseJString fuel rest (c :: acc)

/-- Exponent digits of a JSON number. -/
def expDigits (pre : List Char) (s : List Char) : Except String (List Char × List Char) :=
  let p := s.span Char.isDigit
  if p.1 = [] then .error "missing digits in exponent"
  else .ok (pre ++ p.1, p.2)

/-- Optional exponent part of a JSON number. -/
def expSpan : List Char → Except String (List Char × List Char)
  | 'e' :: '+' :: rest => expDigits ['e', '+'] rest
  | 'e' :: '-' :: rest => expDigits ['e', '-'] rest
  | 'e' :: rest => expDigits ['e'] rest
  | 'E' :: '+' :: rest => expDigits ['E', '+'] rest
  | 'E' :: '-' :: rest => expDigits ['E', '-'] rest
  | 'E' :: rest => expDigits ['E'] rest
  | s => .ok ([], s)

/-- JSON number grammar: optional minus, integer part without a leading
zero, optional fraction, optional exponent; the literal is kept. -/
def parseJNum (s : List Char) : Except String (JsonValue × List Char) :=
  let signSplit : List Char × List Char :=
    match s with
    | '-' :: rest => (['-'], rest)
    | _ => ([], s)
  let neg := signSplit.1
  let s1 := signSplit.2
  let ipSplit := s1.span Char.isDigit
  let intPart := ipSplit.1
  let s2 := ipSplit.2
  if intPart = [] then .error "invalid number literal"
  else if intPart.length > 1 ∧ intPart.headD ' ' = '0' then
    .error "invalid number literal with leading zero"
  else
    let fracSplit : Except String (List Char × List Char) :=
      match s2 with
      | '.' :: rest =>
        let p := rest.span Char.isDigit
        if p.1 = [] then .error "missing digits after decimal point"
        else .ok ('.' :: p.1, p.2)
      | _ => .ok ([], s2)
    match fracSplit with
    | .error e => .error e
    | .ok (fracPart, s3) =>
      match expSpan s3 with
      | .error e => .error e
      | .ok (expPart, s4) =>
        .ok (.num (String.mk (neg ++ intPart ++ fracPart ++ expPart)), s4)

mutual

/-- One JSON value (fuel-indexed recursive descent). -/
def parseJVal : Nat → List Char → Except String (JsonValue × List Char)
  | 0, _ => .error "maximum nesting depth exceeded"
  | fuel + 1, s =>
    match skipWs s with
    | [] => .error "unexpected end of JSON input"
    | 'n' :: rest =>
        if ['u', 'l', 'l'].isPrefixOf rest then .ok (.null, rest.drop 3)
        else .error "invalid literal"
    | 't' :: rest =>
        if ['r', 'u', 'e'].isPrefixOf rest then .ok (.bool true, rest.drop 3)
        else .error "invalid literal"
    | 'f' :: rest =>
        if ['a', 'l', 's', 'e'].isPrefixOf rest then .ok (.bool false, rest.drop 4)
        else .error "invalid literal"
    | '\"' :: rest =>
        match parseJString (rest.length + 1) rest [] with
        | .error e => .error e
        | .ok (str, r1) => .ok (.str str, r1)
    | '\x7b' :: rest => parseJObj fuel (skipWs rest) []
    | '[' :: rest => parseJArr fuel (skipWs rest) []
    | c :: rest =>
        if c = '-' ∨ c.isDigit then parseJNum (c :: rest)
        else .error "invalid character looking for beginning of value"

/-- Members of a JSON object, after the opening brace (whitespace already
skipped); acc holds the members parsed so far, in reverse. -/
def parseJObj : Nat → List Char → List (String × JsonValue) → Except String (JsonValue × List Char)
  | 0, _, _ => .error "maximum nesting depth exceeded"
  | fuel + 1, s, acc =>
    match s with
    | '\x7d' :: rest =>
        if acc.isEmpty then .ok (.obj [], rest)
        else .error "string literal expected after comma in object"
    | '\"' :: rest =>
        match parseJString (rest.length + 1) rest [] with
        | .error e => .error e
        | .ok (key, r1) =>
          match skipWs r1 with
          | ':' :: r2 =>
            match parseJVal fuel r2 with
            | .error e => .error e
            | .ok (v, r3) =>
              match skipWs r3 with
              | ',' :: r4 => parseJObj fuel (skipWs r4) ((key, v) :: acc)
              | '\x7d' :: r4 => .ok (.obj ((key, v) :: acc).reverse, r4)
              | _ => .error "invalid character after object key-value pair"
          | _ => .error "invalid character after object key"
    | _ => .error "invalid character looking for beginning of object key string"

/-- Elements of a JSON array, after the opening bracket (whitespace already
skipped). -/
def parseJArr : Nat → List Char → List JsonValue → Except String (JsonValue × List Char)
  | 0, _, _ => .error "maximum nesting depth exceeded"
  | fuel + 1, s, acc =>
    match s with
    | ']' :: rest =>
        if acc.isEmpty then .ok (.arr [], rest)
        else .error "value expected after comma in array"
    | _ =>
      match parseJVal fuel s with
      | .error e => .error e
      | .ok (v, r1) =>
        match skipWs r1 with
        | ',' :: r2 => parseJArr fuel r2 (v :: acc)
        | ']' :: r2 => .ok (.arr (v :: acc).reverse, r2)
        | _ => .error "invalid character after array element"

end

/-- Parse a whole JSON text: one value with only whitespace around it
(json.Unmarshal runs checkValid over the entire input first). -/
def jsonParse (text : String) : Except String JsonValue :=
  match parseJVal (text.data.length + 1) text.data with
  | .error e => .error e
  | .ok (v, rest) =>
    if skipWs rest = [] then .ok v
    else .error "invalid character after top-level value"

/-! ## Decoding JSON into the pipe.go structs (encoding/json struct rules) -/

/-- ASCII case-insensitive name comparison (encoding/json matches field
names case-insensitively when no exact match exists). -/
def strFoldEq (a b : String) : Bool :=
  (a.data.map Char.toLower) == (b.data.map Char.toLower)

/-- encoding/json key resolution over the effective field names of a struct
(the json tag where present, the Go field name otherwise): an exact match
wins, otherwise the first case-insensitive match in field order. -/
def resolveKey (names : List String) (key : String) : Option String :=
  if names.contains key then some key
  else names.find? (fun n => strFoldEq n key)

/-- Flow (pipe.go lines 34-47): the five json-tagged fields plus the
enrichment fields filled by MakeFlow.  Go zero values are the defaults. -/
structure Flow where
  IpSrcRaw : String := ""
  IpDstRaw : String := ""
  IpSrc : IPRep := .zero
  IpDst : IPRep := .zero
  Packages : Int := 0
  Bytes : Int := 0
  Proto : String := ""
  Direction : String := ""
  Private : Bool := false
  PrivateRaw : String := ""
  Source : Option Peer := none
  Destination : Option Peer := none
deriving DecidableEq, Repr

/-- Largest int64 (json ints go through strconv.ParseInt with bitSize 64). -/
def int64Max : Nat := 9223372036854775807

/-- Numeric value of a list of decimal digits. -/
def natOfDigits (ds : List Char) : Nat :=
  ds.foldl (fun a c => a * 10 + (c.toNat - '0'.toNat)) 0

/-- strconv.ParseInt (base 10, 64 bit) on a JSON number literal: only an
optional minus sign followed by digits is accepted, within int64 range;
fractions and exponents fail here even when integral. -/
def goParseInt (lit : List Char) : Option Int :=
  match lit with
  | '-' :: ds =>
      if ds ≠ [] ∧ ds.all Char.isDigit then
        if natOfDigits ds ≤ int64Max + 1 then some (-(natOfDigits ds : Int)) else none
      else none
  | ds =>
      if ds ≠ [] ∧ ds.all Char.isDigit then
        if natOfDigits ds ≤ int64Max then some (natOfDigits ds : Int) else none
      else none

/-- Exact rational value of a JSON number literal, for float64 struct
fields.  (float64 rounding is not modelled; nothing observable in the
pipeline depends on these values, since MakeFlow overwrites the only
struct fields decoded this way.) -/
def jsonRatVal (lit : List Char) : Rat :=
  let signSplit : Int × List Char :=
    match lit with
    | '-' :: rest => (-1, rest)
    | _ => (1, lit)
  let ipSplit := signSplit.2.span Char.isDigit
  let fracSplit : List Char × List Char :=
    match ipSplit.2 with
    | '.' :: rest => rest.span Char.isDigit
    | _ => ([], ipSplit.2)
  let expVal : Int :=
    match fracSplit.2 with
    | 'e' :: '-' :: ds => -(natOfDigits (ds.takeWhile Char.isDigit) : Int)
    | 'e' :: '+' :: ds => (natOfDigits (ds.takeWhile Char.isDigit) : Int)
    | 'e' :: ds => (natOfDigits (ds.takeWhile Char.isDigit) : Int)
    | 'E' :: '-' :: ds => -(natOfDigits (ds.takeWhile Char.isDigit) : Int)
    | 'E' :: '+' :: ds => (natOfDigits (ds.takeWhile Char.isDigit) : Int)
    | 'E' :: ds => (natOfDigits (ds.takeWhile Char.isDigit) : Int)
    | _ => 0
  let mantissa : Rat :=
    (signSplit.1 * (natOfDigits (ipSplit.1 ++ fracSplit.1) : Int) : Int) /
      ((10 : Rat) ^ fracSplit.1.length)
  if 0 ≤ expVal then mantissa * (10 : Rat) ^ expVal.toNat
  else mantissa / (10 : Rat) ^ (-expVal).toNat

/-- Decode a JSON value into a Go string field (null is a no-op). -/
def decodeStringField (v : JsonValue) (cur : String) : Except String String :=
  match v with
  | .str s => .ok s
  | .null => .ok cur
  | _ => .error "cannot unmarshal JSON value into Go string field"

/-- Decode a JSON value into a Go int field (null is a no-op). -/
def decodeIntField (v : JsonValue) (cur : Int) : Except String Int :=
  match v with
  | .num lit =>
      match goParseInt lit.data with
      | some n => .ok n
      | none => .error "cannot unmarshal number into Go int field"
  | .null => .ok cur
  | _ => .error "cannot unmarshal JSON value into Go int field"

/-- Decode a JSON value into a Go bool field (null is a no-op). -/
def decodeBoolField (v : JsonValue) (cur : Bool) : Except String Bool :=
  match v with
  | .bool b => .ok b
  | .null => .ok cur
  | _ => .error "cannot unmarshal JSON value into Go bool field"

/-- Decode a JSON value into a netaddr.IP field: netaddr.IP implements
encoding.TextUnmarshaler, so the value must be a string; the empty string
yields the zero IP, anything else goes through ParseIP (null is a no-op). -/
def decodeIPField (v : JsonValue) (cur : IPRep) : Except String IPRep :=
  match v with
  | .str s =>
      if s.isEmpty then .ok .zero
      else
        match ParseIP s with
        | .ok ip => .ok ip
        | .error e => .error e
  | .null => .ok cur
  | _ => .error "cannot unmarshal JSON value into netaddr.IP"

/-- Decode a JSON value into a float64 field (null is a no-op). -/
def decodeRatField (v : JsonValue) (cur : Rat) : Except String Rat :=
  match v with
  | .num lit => .ok (jsonRatVal lit.data)
  | .null => .ok cur
  | _ => .error "cannot unmarshal JSON value into Go float64 field"

/-- Go zero value of Peer. -/
def zeroPeer : Peer :=
  { Ip := .zero, Country := "", CountryISO := "", City := "", Asn := "",
    AsnOrg := "", Latitude := 0, Longitude := 0 }

/-- Effective json names of Peer's fields (all untagged). -/
def peerFieldNames : List String :=
  ["Ip", "Country", "CountryISO", "City", "Asn", "AsnOrg", "Latitude", "Longitude"]

/-- Decode one JSON object member into a Peer. -/
def decodePeerField (p : Peer) (key : String) (v : JsonValue) : Except String Peer :=
  match resolveKey peerFieldNames key with
  | some "Ip" => (decodeIPField v p.Ip).map (fun x => { p with Ip := x })
  | some "Country" => (decodeStringField v p.Country).map (fun x => { p with Country := x })
  | some "CountryISO" => (decodeStringField v p.CountryISO).map (fun x => { p with CountryISO := x })
  | some "City" => (decodeStringField v p.City).map (fun x => { p with City := x })
  | some "Asn" => (decodeStringField v p.Asn).map (fun x => { p with Asn := x })
  | some "AsnOrg" => (decodeStringField v p.AsnOrg).map (fun x => { p with AsnOrg := x })
  | some "Latitude" => (decodeRatField v p.Latitude).map (fun x => { p with Latitude := x })
  | some "Longitude" => (decodeRatField v p.Longitude).map (fun x => { p with Longitude := x })
  | _ => .ok p

/-- Decode a JSON value into a *Peer field: null sets the pointer to nil,
an object allocates a zero Peer and decodes into it. -/
def decodePeerPtr (v : JsonValue) : Except String (Option Peer) :=
  match v with
  | .null => .ok none
  | .obj kvs => (kvs.foldlM (fun p kv => decodePeerField p kv.1 kv.2) zeroPeer).map some
  | _ => .error "cannot unmarshal JSON value into *main.Peer"

/-- Effective json names of Flow's fields, in field order: the five tagged
names, then the untagged Go field names. -/
def flowFieldNames : List String :=
  ["ip_src", "ip_dst", "IpSrc", "IpDst", "packets", "bytes", "proto",
   "Direction", "Private", "PrivateRaw", "Source", "Destination"]

/-- Decode one JSON object member into a Flow (unknown keys are ignored). -/
def decodeFlowField (f : Flow) (key : String) (v : JsonValue) : Except String Flow :=
  match resolveKey flowFieldNames key with
  | some "ip_src" => (decodeStringField v f.IpSrcRaw).map (fun x => { f with IpSrcRaw := x })
  | some "ip_dst" => (decodeStringField v f.IpDstRaw).map (fun x => { f with IpDstRaw := x })
  | some "IpSrc" => (decodeIPField v f.IpSrc).map (fun x => { f with IpSrc := x })
  | some "IpDst" => (decodeIPField v f.IpDst).map (fun x => { f with IpDst := x })
  | some "packets" => (decodeIntField v f.Packages).map (fun x => { f with Packages := x })
  | some "bytes" => (decodeIntField v f.Bytes).map (fun x => { f with Bytes := x })
  | some "proto" => (decodeStringField v f.Proto).map (fun x => { f with Proto := x })
  | some "Direction" => (decodeStringField v f.Direction).map (fun x => { f with Direction := x })
  | some "Private" => (decodeBoolField v f.Private).map (fun x => { f with Private := x })
  | some "PrivateRaw" => (decodeStringField v f.PrivateRaw).map (fun x => { f with PrivateRaw := x })
  | some "Source" => (decodePeerPtr v).map (fun x => { f with Source := x })
  | some "Destination" => (decodePeerPtr v).map (fun x => { f with Destination := x })
  | _ => .ok f

/-- json.Unmarshal(text, &f) for f : Flow starting from the zero value:
the top-level value must be an object (decoded member by member, later
duplicates overwriting earlier ones) or null (a no-op). -/
def unmarshalFlow (text : String) : Except String Flow :=
  match jsonParse text with
  | .error e => .error e
  | .ok .null => .ok {}
  | .ok (.obj kvs) => kvs.foldlM (fun f kv => decodeFlowField f kv.1 kv.2) {}
  | .ok _ => .error "cannot unmarshal JSON value into Go value of type main.Flow"


/-! ## Enrichment and classification (pipe.go) -/

/-- containsIP (pipe.go lines 131-138): linear scan with netaddr == . -/
def containsIP (ips : List IPRep) (ip : IPRep) : Bool :=
  match ips with
  | [] => false
  | ip1 :: rest => if ip1 = ip then true else containsIP rest ip

/-- GetDirection (pipe.go lines 140-148): destination membership is checked
before source membership. -/
def GetDirection (f : Flow) (localIps : List IPRep) : String :=
  if containsIP localIps f.IpDst then "in"
  else if containsIP localIps f.IpSrc then "out"
  else "unknown"

/-- Result of MakeFlow: a Flow, a returned error, or a Go runtime panic
(pipe.go lines 74-75 dereference the Peer pointers without a nil check). -/
inductive MakeFlowResult where
  | ok (f : Flow)
  | err (e : GoError)
  | panicNilDeref
deriving DecidableEq, Repr

/--
MakeFlow (pipe.go lines 59-89): json decode (errors always returned), the
two MakePeer calls whose errors are returned ONLY when the verbose flag is
set (the Go condition is err != nil AND *verbose), then the field fills.
When a MakePeer call failed and verbose is unset, execution reaches
f.IpSrc = source.Ip / f.IpDst = destination.Ip with a nil pointer, which
panics at runtime.
-/
def MakeFlow (text : String) (localIps : List IPRep) (dbCity : CityDB)
    (dbASN : AsnDB) (verbose : Bool) : MakeFlowResult :=
  match unmarshalFlow text with
  | .error e => .err (.jsonError e)
  | .ok f0 =>
    match MakePeer f0.IpSrcRaw dbCity dbASN, verbose with
    | .error e, true => .err e
    | srcRes, _ =>
      match MakePeer f0.IpDstRaw dbCity dbASN, verbose with
      | .error e, true => .err e
      | dstRes, _ =>
        match srcRes, dstRes with
        | .ok source, .ok destination =>
          let f1 := { f0 with IpSrc := source.Ip, IpDst := destination.Ip,
                              Source := some source, Destination := some destination }
          let f2 := { f1 with Direction := GetDirection f1 localIps }
          let priv := source.Ip.IsPrivate && destination.Ip.IsPrivate
          .ok { f2 with Private := priv,
                        PrivateRaw := if priv then "private" else "public" }
        | _, _ => .panicNilDeref

/-! ## Metric aggregation (pipe.go) -/

/-- The label tuple of the flow_direction_bytes counter vector (pipe.go
lines 150-157); privateLabel is the label named private. -/
structure Labels where
  direction : String
  privateLabel : String
  country : String
  asn : String
  asnOrg : String
deriving DecidableEq, Repr

/-- The process-wide counter state: a value per label tuple.  The
prometheus float64 counter is modelled as an exact integer accumulator
(the pipeline only ever adds the integral byte count of a flow). -/
abbrev CounterState := Labels → Int

/-- Pure state update behind a counter Add: one key grows by the value,
all other keys are untouched. -/
def counterAdd (st : CounterState) (l : Labels) (v : Int) : CounterState :=
  fun l2 => if l2 = l then st l2 + v else st l2

/-- CounterVec.With(labels).Add(v) (prometheus client_golang): Counter.Add
panics when the value is negative (a counter cannot decrease in value),
modelled as none; otherwise exactly the selected key grows by the value.
The float64 accumulator is modelled as an exact integer, since the
pipeline only ever adds the integral byte count of a flow. -/
def counterVecAdd (st : CounterState) (l : Labels) (v : Int) : Option CounterState :=
  if v < 0 then none
  else some (counterAdd st l v)

/--
LogPrometheus (pipe.go lines 167-197): only flows with direction in or out
are counted; the remote peer is the Source for in and the Destination for
out; the returned state is none when the selected peer pointer is nil (the
Go code would panic on peer.Country) or when the added byte count is
negative (Counter.Add panics on a negative value).
-/
def LogPrometheus (flow : Flow) (st : CounterState) : Option CounterState :=
  if flow.Direction == "in" || flow.Direction == "out" then
    let peer := if flow.Direction == "in" then flow.Source else flow.Destination
    match peer with
    | none => none
    | some p =>
        counterVecAdd st
          { direction := flow.Direction, privateLabel := flow.PrivateRaw,
            country := p.Country, asn := p.Asn, asnOrg := p.AsnOrg }
          flow.Bytes
  else some st

/-! ## The ingestion loop body (pipe.go main, scanner goroutine) -/

/-- strings.HasPrefix. -/
def strHasPre (s p : String) : Bool :=
  p.data.isPrefixOf s.data

/-- What one loop iteration does with a line: aggregate and continue, kill
the whole process (log.Fatal or a runtime panic), or print the line
unchanged to stdout and continue. -/
inductive LineOutcome where
  | aggregated (st : CounterState)
  | fatal
  | passthrough (text : String)

/-- Whether an outcome is the verbatim pass-through of a non-flow line. -/
def LineOutcome.isPassthrough : LineOutcome → Bool
  | .passthrough _ => true
  | _ => false

/--
One iteration of the scanner loop (pipe.go lines 257-277): lines whose
first character is an opening brace go through MakeFlow — any MakeFlow
error is log.Fatal, which terminates the process — and then LogPrometheus;
all other lines are printed verbatim.  The verbose Printf only writes to
stdout and does not affect the counter state.
-/
def processLine (text : String) (localIps : List IPRep) (dbCity : CityDB)
    (dbASN : AsnDB) (verbose : Bool) (st : CounterState) : LineOutcome :=
  if strHasPre text "\x7b" then
    match MakeFlow text localIps dbCity dbASN verbose with
    | .err _ => .fatal
    | .panicNilDeref => .fatal
    | .ok flow =>
      match LogPrometheus flow st with
      | some st2 => .aggregated st2
      | none => .fatal
  else .passthrough text

/-! ## Spec-side definitions, for refinement comparisons only -/

/--
Modelled from the spec (4.2): a candidate flow record is a line whose
first non-whitespace character is an opening brace.  This follows the
spec's words and exists only to be compared with the code's test.
-/
def specCandidate (s : String) : Bool :=
  match s.data.dropWhile isSpaceChar with
  | c :: _ => c == '\x7b'
  | [] => false

/--
Modelled from the spec (4.3): private-use per standard IP addressing rules,
where private-use includes loopback, link-local, and RFC1918/RFC4193-style
private ranges.  This follows the spec's words and exists only to be
compared with the code's IsPrivate.
-/
def specPrivateUse (ip : IPRep) : Bool :=
  match ip with
  | .v4 a b _ _ =>
      a == 127
      || (a == 169 && b == 254)
      || a == 10 || (a == 172 && (b &&& 0xf0) == 16) || (a == 192 && b == 168)
  | .v6 bytes _ =>
      bytes == (List.replicate 15 0 ++ [1])
      || ((bytes.headD 0) == 0xfe && ((bytes.getD 1 0) &&& 0xc0) == 0x80)
      || ((bytes.headD 0) &&& 0xfe) == 0xfc
  | .zero => false


/-! ## Helper definitions shared by the theorems -/

/-- The all-zero counter state (process start). -/
def zeroCounters : CounterState := fun _ => 0

/-- The Peer produced for an address when both lookup databases have no
record: all fields empty except the parsed address. -/
def emptyPeer (ip : IPRep) : Peer := { zeroPeer with Ip := ip }

/-- The Flow carried by a MakeFlowResult, if any. -/
def MakeFlowResult.flowOpt : MakeFlowResult → Option Flow
  | .ok f => some f
  | _ => none

/-- Whether a JSON value is an object or null (the only two top-level
shapes json.Unmarshal accepts for a struct target). -/
def jsonIsObjOrNull : JsonValue → Bool
  | .null => true
  | .obj _ => true
  | _ => false

/-- Whether an Except value is a success. -/
def exceptIsOk {e a : Type} : Except e a → Bool
  | .ok _ => true
  | .error _ => false

/-- The Flow produced by MakeFlow for a 10.0.0.1 to 8.8.8.8 record with
empty lookup databases and no local addresses (used as a concrete witness
input). -/
def flowPublicExample : Flow :=
  { IpSrcRaw := "10.0.0.1", IpDstRaw := "8.8.8.8",
    IpSrc := .v4 10 0 0 1, IpDst := .v4 8 8 8 8,
    Packages := 2, Bytes := 9, Direction := "unknown",
    Private := false, PrivateRaw := "public",
    Source := some (emptyPeer (.v4 10 0 0 1)),
    Destination := some (emptyPeer (.v4 8 8 8 8)) }

/-- The Flow produced by MakeFlow for a 10.0.0.1 to 10.0.0.2 record with
empty lookup databases and no local addresses (used as a concrete witness
input). -/
def flowPrivateExample : Flow :=
  { IpSrcRaw := "10.0.0.1", IpDstRaw := "10.0.0.2",
    IpSrc := .v4 10 0 0 1, IpDst := .v4 10 0 0 2,
    Packages := 1, Bytes := 4, Direction := "unknown",
    Private := true, PrivateRaw := "private",
    Source := some (emptyPeer (.v4 10 0 0 1)),
    Destination := some (emptyPeer (.v4 10 0 0 2)) }

/-! ## Shared lemmas -/

theorem containsIP_eq_true_iff (ips : List IPRep) (ip : IPRep) :
    containsIP ips ip = true ↔ ip ∈ ips := by
  induction ips with
  | nil => simp [containsIP]
  | cons a as ih =>
    by_cases h : a = ip
    · simp [containsIP, h]
    · simp only [containsIP, if_neg h, ih, List.mem_cons]
      constructor
      · exact fun hm => Or.inr hm
      · rintro (he | hm)
        · exact absurd he.symm h
        · exact hm

theorem containsIP_eq_false_iff (ips : List IPRep) (ip : IPRep) :
    containsIP ips ip = false ↔ ip ∉ ips := by
  rw [Bool.eq_false_iff]
  exact not_congr (containsIP_eq_true_iff ips ip)

/-- Shape of any successful MakeFlow result: the json decode succeeded,
both MakePeer calls succeeded, and the returned Flow is the decoded record
with the enrichment fields filled exactly as in pipe.go lines 74-88. -/
theorem makeFlow_ok_shape (text : String) (localIps : List IPRep) (dbCity : CityDB)
    (dbASN : AsnDB) (verbose : Bool) (flow : Flow)
    (h : MakeFlow text localIps dbCity dbASN verbose = .ok flow) :
    ∃ f0 source destination,
      unmarshalFlow text = .ok f0
      ∧ MakePeer f0.IpSrcRaw dbCity dbASN = .ok source
      ∧ MakePeer f0.IpDstRaw dbCity dbASN = .ok destination
      ∧ flow = { f0 with
          IpSrc := source.Ip, IpDst := destination.Ip,
          Source := some source, Destination := some destination,
          Direction := GetDirection
            { f0 with IpSrc := source.Ip, IpDst := destination.Ip,
                      Source := some source, Destination := some destination } localIps,
          Private := source.Ip.IsPrivate && destination.Ip.IsPrivate,
          PrivateRaw := if source.Ip.IsPrivate && destination.Ip.IsPrivate
                        then "private" else "public" } := by
  unfold MakeFlow at h
  split at h
  · simp at h
  next f0 hj =>
    split at h
    · simp at h
    next srcRes hna =>
      split at h
      · simp at h
      next dstRes hnb =>
        split at h
        next _ _ source destination heq1 heq2 =>
          injection h with h2
          exact ⟨f0, source, destination, hj, heq1, heq2, h2.symm⟩
        next => simp at h

/-- An Except.map that produced a success came from a success. -/
theorem except_map_ok {e a b : Type} (g : a → b) (r : Except e a) (y : b)
    (h : r.map g = .ok y) : ∃ x, r = .ok x ∧ y = g x := by
  cases r with
  | error err => simp [Except.map] at h
  | ok x =>
    simp [Except.map] at h
    exact ⟨x, rfl, h.symm⟩

/-- A key resolution that succeeds returns one of the struct's effective
field names. -/
theorem resolveKey_mem (names : List String) (key s : String)
    (h : resolveKey names key = some s) : s ∈ names := by
  unfold resolveKey at h
  split at h
  next hc =>
    injection h with h2
    subst h2
    exact List.mem_of_elem_eq_true hc
  next hc =>
    exact List.mem_of_find?_eq_some h

set_option maxHeartbeats 1600000 in
/-- Decoding one object member touches only the struct field its key
resolves to: any member whose key does not resolve to packets leaves
Packages unchanged, and likewise for bytes and Bytes. -/
theorem decodeFlowField_stable (f g : Flow) (key : String) (v : JsonValue)
    (h : decodeFlowField f key v = .ok g) :
    (resolveKey flowFieldNames key ≠ some "packets" → g.Packages = f.Packages)
    ∧ (resolveKey flowFieldNames key ≠ some "bytes" → g.Bytes = f.Bytes) := by
  unfold decodeFlowField at h
  cases hr : resolveKey flowFieldNames key with
  | none =>
    rw [hr] at h
    injection h with h2
    subst h2
    exact ⟨fun _ => rfl, fun _ => rfl⟩
  | some s =>
    have hs := resolveKey_mem flowFieldNames key s hr
    rw [hr] at h
    simp only [flowFieldNames, List.mem_cons, List.not_mem_nil, or_false] at hs
    rcases hs with rfl | rfl | rfl | rfl | rfl | rfl | rfl | rfl | rfl | rfl | rfl | rfl <;>
      obtain ⟨x, hx, rfl⟩ := except_map_ok _ _ _ h <;>
      refine ⟨fun hk => ?_, fun hk => ?_⟩ <;>
      first
        | rfl
        | exact absurd rfl hk

/-- Folding the member decoder over an object: if no key resolves to
packets the resulting Packages equals the starting one, and likewise for
bytes. -/
theorem foldlM_decode_stable (kvs : List (String × JsonValue)) (f0 f : Flow)
    (h : List.foldlM (fun f kv => decodeFlowField f kv.1 kv.2) f0 kvs = .ok f) :
    ((∀ kv ∈ kvs, resolveKey flowFieldNames kv.1 ≠ some "packets") →
        f.Packages = f0.Packages)
    ∧ ((∀ kv ∈ kvs, resolveKey flowFieldNames kv.1 ≠ some "bytes") →
        f.Bytes = f0.Bytes) := by
  induction kvs generalizing f0 with
  | nil =>
    simp only [List.foldlM_nil] at h
    injection h with h2
    subst h2
    simp
  | cons kv rest ih =>
    rw [List.foldlM_cons] at h
    cases hd : decodeFlowField f0 kv.1 kv.2 with
    | error e =>
      rw [hd] at h
      exact Except.noConfusion h
    | ok f1 =>
      rw [hd] at h
      obtain ⟨ihp, ihb⟩ := ih f1 h
      obtain ⟨sp, sb⟩ := decodeFlowField_stable f0 f1 kv.1 kv.2 hd
      refine ⟨fun hall => ?_, fun hall => ?_⟩
      · rw [ihp (fun x hx => hall x (List.mem_cons_of_mem _ hx)),
          sp (hall kv (List.mem_cons_self _ _))]
      · rw [ihb (fun x hx => hall x (List.mem_cons_of_mem _ hx)),
          sb (hall kv (List.mem_cons_self _ _))]

/-! ## Claim theorems -/

/--
C1: the claim says MakeFlow returns an InvalidAddress error for an
unparseable endpoint address regardless of configuration.  The code only
returns that error when the verbose flag is set; with verbose unset it
reaches source.Ip on a nil pointer and panics.  This theorem evaluates the
code at the failing input in both configurations.
-/
theorem makeFlow_invalid_address_verbose_dependent :
    MakeFlow "\x7b\"ip_src\":\"not-an-ip\",\"ip_dst\":\"10.0.0.1\",\"packets\":1,\"bytes\":1\x7d"
        [] (fun _ => none) (fun _ => none) false = .panicNilDeref
    ∧ MakeFlow "\x7b\"ip_src\":\"not-an-ip\",\"ip_dst\":\"10.0.0.1\",\"packets\":1,\"bytes\":1\x7d"
        [] (fun _ => none) (fun _ => none) true
        = .err (.parseIPError "unable to parse IP") :=
  ⟨rfl, rfl⟩

/--
C2 counterexample: a malformed brace-prefixed line kills the pipeline (the
loop calls log.Fatal on any MakeFlow error), contradicting the claim that
malformed lines are discarded and ingestion continues.
-/
theorem malformed_line_is_fatal_cex :
    processLine "\x7bops" [] (fun _ => none) (fun _ => none) false zeroCounters = .fatal
    ∧ (unmarshalFlow "\x7bops").toOption = none :=
  ⟨rfl, rfl⟩

/--
C2 (amended): a brace-prefixed line that fails to decode terminates the
pipeline via log.Fatal; a line that is not brace-prefixed never terminates
the loop; a well-formed but unattributable (unknown-direction) flow is a
no-op on the counters and the loop continues.
-/
theorem ingest_step_fatality (text : String) (localIps : List IPRep) (dbCity : CityDB)
    (dbASN : AsnDB) (verbose : Bool) (st : CounterState) :
    (∀ e, strHasPre text "\x7b" = true → unmarshalFlow text = .error e →
        processLine text localIps dbCity dbASN verbose st = .fatal)
    ∧ (strHasPre text "\x7b" = false →
        processLine text localIps dbCity dbASN verbose st = .passthrough text)
    ∧ (∀ flow, strHasPre text "\x7b" = true →
        MakeFlow text localIps dbCity dbASN verbose = .ok flow →
        flow.Direction = "unknown" →
        processLine text localIps dbCity dbASN verbose st = .aggregated st) := by
  refine ⟨fun e h1 h2 => ?_, fun h1 => ?_, fun flow h1 h2 h3 => ?_⟩
  · simp [processLine, h1, MakeFlow, h2]
  · simp [processLine, h1]
  · simp [processLine, h1, h2, LogPrometheus, h3]

/-- Witness for the amended C2 theorem at concrete inputs. -/
theorem ingest_step_fatality_witness :
    processLine "\x7bbad json" [] (fun _ => none) (fun _ => none) false zeroCounters = .fatal
    ∧ processLine "collector log line" [] (fun _ => none) (fun _ => none) false zeroCounters
        = .passthrough "collector log line"
    ∧ processLine "\x7b\"ip_src\":\"1.2.3.4\",\"ip_dst\":\"5.6.7.8\",\"packets\":1,\"bytes\":5\x7d"
        [] (fun _ => none) (fun _ => none) false zeroCounters = .aggregated zeroCounters :=
  ⟨(ingest_step_fatality _ _ _ _ _ _).1
      "invalid character looking for beginning of object key string" rfl rfl,
   (ingest_step_fatality _ _ _ _ _ _).2.1 rfl,
   (ingest_step_fatality _ _ _ _ _ _).2.2
      { IpSrcRaw := "1.2.3.4", IpDstRaw := "5.6.7.8",
        IpSrc := .v4 1 2 3 4, IpDst := .v4 5 6 7 8,
        Packages := 1, Bytes := 5, Direction := "unknown", PrivateRaw := "public",
        Source := some (emptyPeer (.v4 1 2 3 4)),
        Destination := some (emptyPeer (.v4 5 6 7 8)) }
      rfl rfl rfl⟩

/--
C3: LogPrometheus attributes an in-flow to the Source peer and an out-flow
to the Destination peer, incrementing exactly the counter keyed by
(direction, privacy, remote country, remote asn, remote asn-org) by the
flow's byte count and leaving every other key unchanged.  The increment is
stated for non-negative byte counts (every record respecting the input
contract); on a negative byte count Counter.Add panics instead, which the
final conjunct records.
-/
theorem logPrometheus_remote_attribution (flow : Flow) (st : CounterState) (p : Peer) :
    (flow.Direction = "in" → flow.Source = some p → 0 ≤ flow.Bytes →
        LogPrometheus flow st
          = some (counterAdd st
              { direction := "in", privateLabel := flow.PrivateRaw,
                country := p.Country, asn := p.Asn, asnOrg := p.AsnOrg } flow.Bytes))
    ∧ (flow.Direction = "out" → flow.Destination = some p → 0 ≤ flow.Bytes →
        LogPrometheus flow st
          = some (counterAdd st
              { direction := "out", privateLabel := flow.PrivateRaw,
                country := p.Country, asn := p.Asn, asnOrg := p.AsnOrg } flow.Bytes))
    ∧ (∀ l v, counterAdd st l v l = st l + v)
    ∧ (∀ l v l2, l2 ≠ l → counterAdd st l v l2 = st l2)
    ∧ (flow.Bytes < 0 → flow.Direction = "in" → flow.Source = some p →
        LogPrometheus flow st = none) := by
  refine ⟨fun hdir hsrc hb => ?_, fun hdir hdst hb => ?_, fun l v => ?_,
    fun l v l2 hne => ?_, fun hneg hdir hsrc => ?_⟩
  · simp [LogPrometheus, hdir, hsrc, counterVecAdd, not_lt.mpr hb]
  · simp [LogPrometheus, hdir, hdst, counterVecAdd, not_lt.mpr hb]
  · simp [counterAdd]
  · simp [counterAdd, hne]
  · simp [LogPrometheus, hdir, hsrc, counterVecAdd, hneg]

/-- Witness for the C3 theorem at a concrete in-flow. -/
theorem logPrometheus_remote_attribution_witness :
    LogPrometheus
        { Direction := "in", PrivateRaw := "private", Bytes := 143,
          Source := some (emptyPeer (.v4 10 0 1 1)) } zeroCounters
      = some (counterAdd zeroCounters
          { direction := "in", privateLabel := "private",
            country := "", asn := "", asnOrg := "" } 143) :=
  (logPrometheus_remote_attribution _ zeroCounters (emptyPeer (.v4 10 0 1 1))).1 rfl rfl
    (by decide)

/--
C4: a flow whose direction is unknown contributes no counter increment:
LogPrometheus returns the state unchanged (and does not panic).
-/
theorem logPrometheus_unknown_frame (flow : Flow) (st : CounterState)
    (h : flow.Direction = "unknown") :
    LogPrometheus flow st = some st := by
  simp [LogPrometheus, h]

/-- Witness for the C4 theorem. -/
theorem logPrometheus_unknown_frame_witness :
    LogPrometheus { Direction := "unknown" } zeroCounters = some zeroCounters :=
  logPrometheus_unknown_frame _ _ rfl

/--
C5: GetDirection checks destination membership before source membership:
a local destination gives in (also when the source is local too), a local
source with non-local destination gives out, and neither endpoint local
gives unknown.
-/
theorem getDirection_policy (f : Flow) (localIps : List IPRep) :
    (f.IpDst ∈ localIps → GetDirection f localIps = "in")
    ∧ (f.IpDst ∈ localIps → f.IpSrc ∈ localIps → GetDirection f localIps = "in")
    ∧ (f.IpDst ∉ localIps → f.IpSrc ∈ localIps → GetDirection f localIps = "out")
    ∧ (f.IpDst ∉ localIps → f.IpSrc ∉ localIps → GetDirection f localIps = "unknown") := by
  refine ⟨fun hd => ?_, fun hd _ => ?_, fun hnd hs => ?_, fun hnd hns => ?_⟩
  · simp [GetDirection, (containsIP_eq_true_iff _ _).mpr hd]
  · simp [GetDirection, (containsIP_eq_true_iff _ _).mpr hd]
  · simp [GetDirection, (containsIP_eq_false_iff _ _).mpr hnd,
      (containsIP_eq_true_iff _ _).mpr hs]
  · simp [GetDirection, (containsIP_eq_false_iff _ _).mpr hnd,
      (containsIP_eq_false_iff _ _).mpr hns]

/-- Witness for the C5 theorem: both endpoints local classifies as in. -/
theorem getDirection_policy_witness :
    GetDirection { IpSrc := IPRep.v4 10 0 0 1, IpDst := IPRep.v4 10 0 0 2 }
      [IPRep.v4 10 0 0 1, IPRep.v4 10 0 0 2] = "in" :=
  (getDirection_policy _ _).2.1 (by decide) (by decide)

/--
C9 counterexample: a line whose first non-whitespace character is an
opening brace but whose first character is a space is passed through
verbatim and never reaches the parser, contradicting the claimed
first-non-whitespace test (the code tests the first character).
-/
theorem scanner_leading_space_cex :
    (processLine " \x7b" [] (fun _ => none) (fun _ => none) false zeroCounters).isPassthrough = true
    ∧ specCandidate " \x7b" = true
    ∧ strHasPre " \x7b" "\x7b" = false :=
  ⟨rfl, rfl, rfl⟩

/--
C9 (amended): a line is handed to the parser iff its first character is an
opening brace; every other line is passed through verbatim.
-/
theorem scanner_first_char_policy (text : String) (localIps : List IPRep) (dbCity : CityDB)
    (dbASN : AsnDB) (verbose : Bool) (st : CounterState) :
    (strHasPre text "\x7b" = false →
        processLine text localIps dbCity dbASN verbose st = .passthrough text)
    ∧ (strHasPre text "\x7b" = true →
        (processLine text localIps dbCity dbASN verbose st).isPassthrough = false) := by
  refine ⟨fun h1 => ?_, fun h1 => ?_⟩
  · simp [processLine, h1]
  · simp only [processLine, h1, if_true]
    rcases hm : MakeFlow text localIps dbCity dbASN verbose with flow | e | _
    · rcases hl : LogPrometheus flow st with _ | st2 <;>
        simp [hl, LineOutcome.isPassthrough]
    · simp [LineOutcome.isPassthrough]
    · simp [LineOutcome.isPassthrough]

/-- Witness for the amended C9 theorem at concrete inputs. -/
theorem scanner_first_char_policy_witness :
    processLine "STATUS: collector started" [] (fun _ => none) (fun _ => none) false zeroCounters
      = .passthrough "STATUS: collector started"
    ∧ (processLine "\x7b\x7d" [] (fun _ => none) (fun _ => none) false zeroCounters).isPassthrough
      = false :=
  ⟨(scanner_first_char_policy _ _ _ _ _ _).1 rfl,
   (scanner_first_char_policy _ _ _ _ _ _).2 rfl⟩


/--
C6 counterexample: a flow between two loopback addresses (127.0.0.1 and
127.0.0.2) is private-use under the spec's definition (which includes
loopback), yet the code classifies it as not private — IsPrivate covers
only RFC1918/RFC4193 ranges.
-/
theorem makeFlow_loopback_not_private_cex :
    (MakeFlow "\x7b\"ip_src\":\"127.0.0.1\",\"ip_dst\":\"127.0.0.2\",\"packets\":1,\"bytes\":1\x7d"
        [] (fun _ => none) (fun _ => none) false).flowOpt.map
      (fun f => (f.Private, specPrivateUse f.IpSrc, specPrivateUse f.IpDst))
    = some (false, true, true) := rfl

/--
C6 (amended): every Flow successfully returned by MakeFlow has
Private = true iff both endpoint addresses are private per RFC 1918
(10/8, 172.16/12, 192.168/16) or RFC 4193 (fc00::/7); loopback and
link-local addresses do not count as private.
-/
theorem makeFlow_private_iff_both_rfc (text : String) (localIps : List IPRep)
    (dbCity : CityDB) (dbASN : AsnDB) (verbose : Bool) (flow : Flow)
    (h : MakeFlow text localIps dbCity dbASN verbose = .ok flow) :
    flow.Private = (flow.IpSrc.IsPrivate && flow.IpDst.IsPrivate) := by
  obtain ⟨f0, source, destination, hj, hs, hd, hflow⟩ :=
    makeFlow_ok_shape text localIps dbCity dbASN verbose flow h
  subst hflow
  rfl

/-- Witness for the amended C6 theorem on a concrete private flow. -/
theorem makeFlow_private_iff_both_rfc_witness :
    flowPrivateExample.Private
      = (flowPrivateExample.IpSrc.IsPrivate && flowPrivateExample.IpDst.IsPrivate) :=
  makeFlow_private_iff_both_rfc
    "\x7b\"ip_src\":\"10.0.0.1\",\"ip_dst\":\"10.0.0.2\",\"packets\":1,\"bytes\":4\x7d"
    [] (fun _ => none) (fun _ => none) false flowPrivateExample rfl

/--
C7 counterexample: the claim says the decoder rejects records whose
packets field is negative; the code accepts them (Go json places no sign
constraint on an int field).
-/
theorem unmarshal_negative_packets_accepted_cex :
    (unmarshalFlow
        "\x7b\"ip_src\":\"10.0.0.1\",\"ip_dst\":\"10.0.0.2\",\"packets\":-5,\"bytes\":10\x7d").toOption.map
      (fun f => (f.Packages, f.Bytes)) = some (-5, 10) := rfl

/--
C7 (amended): the decoder fails when the text is not valid structured data
(a syntax error, or a top-level value that is not an object or null), but
performs no presence or non-negativity validation of the numeric fields:
an object with no member resolving to packets (or bytes) decodes with that
field left at zero, and any integer literal strconv.ParseInt accepts —
negative ones included — is decoded and stored verbatim.
-/
theorem flow_decoder_amended :
    (∀ text e, jsonParse text = .error e → unmarshalFlow text = .error e)
    ∧ (∀ text v, jsonParse text = .ok v → jsonIsObjOrNull v = false →
        unmarshalFlow text
          = .error "cannot unmarshal JSON value into Go value of type main.Flow")
    ∧ (∀ text kvs f, jsonParse text = .ok (.obj kvs) → unmarshalFlow text = .ok f →
        ((∀ kv ∈ kvs, resolveKey flowFieldNames kv.1 ≠ some "packets") →
            f.Packages = 0)
        ∧ ((∀ kv ∈ kvs, resolveKey flowFieldNames kv.1 ≠ some "bytes") →
            f.Bytes = 0))
    ∧ (∀ (lit : String) (n : Int) (f : Flow), goParseInt lit.data = some n →
        decodeFlowField f "packets" (.num lit) = .ok { f with Packages := n }
        ∧ decodeFlowField f "bytes" (.num lit) = .ok { f with Bytes := n }) := by
  refine ⟨fun text e h1 => ?_, fun text v h1 h2 => ?_,
    fun text kvs f h1 h2 => ?_, fun lit n f hn => ?_⟩
  · unfold unmarshalFlow
    rw [h1]
  · unfold unmarshalFlow
    rw [h1]
    cases v with
    | null => simp [jsonIsObjOrNull] at h2
    | obj kvs => simp [jsonIsObjOrNull] at h2
    | bool b => rfl
    | num lit => rfl
    | str s => rfl
    | arr xs => rfl
  · unfold unmarshalFlow at h2
    rw [h1] at h2
    exact foldlM_decode_stable kvs {} f h2
  · have hp : decodeFlowField f "packets" (.num lit)
        = (decodeIntField (.num lit) f.Packages).map (fun x => { f with Packages := x }) := rfl
    have hb : decodeFlowField f "bytes" (.num lit)
        = (decodeIntField (.num lit) f.Bytes).map (fun x => { f with Bytes := x }) := rfl
    constructor
    · rw [hp]; simp [decodeIntField, hn, Except.map]
    · rw [hb]; simp [decodeIntField, hn, Except.map]

/-- Witness for the amended C7 theorem at concrete inputs: a non-JSON
line fails, a top-level array fails, an object without packets and bytes
members decodes them to zero, and a negative literal is stored verbatim. -/
theorem flow_decoder_amended_witness :
    unmarshalFlow "not structured data" = .error "invalid literal"
    ∧ unmarshalFlow "[1,2]"
        = .error "cannot unmarshal JSON value into Go value of type main.Flow"
    ∧ (({ IpSrcRaw := "10.0.0.1", IpDstRaw := "10.0.0.2" } : Flow).Packages = 0
        ∧ ({ IpSrcRaw := "10.0.0.1", IpDstRaw := "10.0.0.2" } : Flow).Bytes = 0)
    ∧ decodeFlowField {} "packets" (JsonValue.num "-5") = .ok { Packages := -5 } := by
  have h := flow_decoder_amended
  refine ⟨h.1 "not structured data" "invalid literal" rfl, ?_, ?_, ?_⟩
  · exact h.2.1 "[1,2]" (.arr [.num "1", .num "2"]) rfl rfl
  · have h3 := h.2.2.1 "\x7b\"ip_src\":\"10.0.0.1\",\"ip_dst\":\"10.0.0.2\"\x7d"
      [("ip_src", .str "10.0.0.1"), ("ip_dst", .str "10.0.0.2")]
      { IpSrcRaw := "10.0.0.1", IpDstRaw := "10.0.0.2" } rfl rfl
    exact ⟨h3.1 (by decide), h3.2 (by decide)⟩
  · exact (h.2.2.2 "-5" (-5) {} rfl).1

/--
C8: MakePeer fails exactly when the address string does not parse; on a
parseable address it succeeds, a missing city or ASN record leaves the
corresponding Peer fields at their zero values, and the two lookups are
independent (the city-derived fields do not depend on the ASN database and
conversely).
-/
theorem makePeer_contract (s : String) (dbCity dbCity2 : CityDB) (dbASN dbASN2 : AsnDB) :
    (exceptIsOk (ParseIP s) = true → exceptIsOk (MakePeer s dbCity dbASN) = true)
    ∧ (∀ e0, ParseIP s = .error e0 → MakePeer s dbCity dbASN = .error (.parseIPError e0))
    ∧ (∀ ip p, ParseIP s = .ok ip → MakePeer s dbCity dbASN = .ok p →
        p.Ip = ip
        ∧ (dbCity ip = none →
            p.Country = "" ∧ p.CountryISO = "" ∧ p.City = "" ∧ p.Latitude = 0 ∧ p.Longitude = 0)
        ∧ (dbASN ip = none → p.Asn = "" ∧ p.AsnOrg = ""))
    ∧ ((MakePeer s dbCity dbASN).toOption.map
          (fun p => (p.Country, p.CountryISO, p.City, p.Latitude, p.Longitude))
        = (MakePeer s dbCity dbASN2).toOption.map
          (fun p => (p.Country, p.CountryISO, p.City, p.Latitude, p.Longitude)))
    ∧ ((MakePeer s dbCity dbASN).toOption.map (fun p => (p.Asn, p.AsnOrg))
        = (MakePeer s dbCity2 dbASN).toOption.map (fun p => (p.Asn, p.AsnOrg))) := by
  rcases hp : ParseIP s with e | ip
  · refine ⟨?_, ?_, ?_, ?_, ?_⟩
    · intro hok; simp [exceptIsOk] at hok
    · intro e0 he; injection he with h1; subst h1; simp [MakePeer, hp]
    · intro ip p hip; simp at hip
    · simp [MakePeer, hp, Except.toOption]
    · simp [MakePeer, hp, Except.toOption]
  · refine ⟨?_, ?_, ?_, ?_, ?_⟩
    · intro _; simp [MakePeer, hp, exceptIsOk]
    · intro e0 he; simp at he
    · intro ip2 p hip hmk
      injection hip with h1
      subst h1
      simp only [MakePeer, hp] at hmk
      injection hmk with h2
      subst h2
      refine ⟨rfl, fun hc => ?_, fun ha => ?_⟩
      · simp [hc]
      · simp [ha]
    · simp [MakePeer, hp, Except.toOption]
    · simp [MakePeer, hp, Except.toOption]

/-- Witness for the C8 theorem: a valid address resolved against empty
databases yields the all-empty Peer. -/
theorem makePeer_contract_witness :
    (emptyPeer (IPRep.v4 10 0 0 1)).Ip = IPRep.v4 10 0 0 1
    ∧ (emptyPeer (IPRep.v4 10 0 0 1)).Country = ""
    ∧ (emptyPeer (IPRep.v4 10 0 0 1)).Asn = "" := by
  have h := (makePeer_contract "10.0.0.1" (fun _ => none) (fun _ => none)
      (fun _ => none) (fun _ => none)).2.2.1
    (IPRep.v4 10 0 0 1) (emptyPeer (IPRep.v4 10 0 0 1)) rfl rfl
  exact ⟨h.1, (h.2.1 rfl).1, (h.2.2 rfl).1⟩

/--
C10: every Flow successfully returned by MakeFlow has a consistent privacy
pair — PrivateRaw is the string private exactly when Private is true, and
the string public exactly when Private is false.
-/
theorem makeFlow_privacy_label_consistent (text : String) (localIps : List IPRep)
    (dbCity : CityDB) (dbASN : AsnDB) (verbose : Bool) (flow : Flow)
    (h : MakeFlow text localIps dbCity dbASN verbose = .ok flow) :
    (flow.PrivateRaw = "private" ↔ flow.Private = true)
    ∧ (flow.PrivateRaw = "public" ↔ flow.Private = false) := by
  obtain ⟨f0, source, destination, hj, hs, hd, hflow⟩ :=
    makeFlow_ok_shape text localIps dbCity dbASN verbose flow h
  subst hflow
  by_cases hp : (source.Ip.IsPrivate && destination.Ip.IsPrivate) = true
  · simp [hp]
  · simp [hp]

/-- Witness for the C10 theorem on a concrete successful MakeFlow run. -/
theorem makeFlow_privacy_label_consistent_witness :
    (flowPublicExample.PrivateRaw = "private" ↔ flowPublicExample.Private = true)
    ∧ (flowPublicExample.PrivateRaw = "public" ↔ flowPublicExample.Private = false) :=
  makeFlow_privacy_label_consistent
    "\x7b\"ip_src\":\"10.0.0.1\",\"ip_dst\":\"8.8.8.8\",\"packets\":2,\"bytes\":9\x7d"
    [] (fun _ => none) (fun _ => none) false flowPublicExample rfl

end Pmacct
